import Mathlib

set_option maxRecDepth 100000

/-!
A shallow embedding of `src/lib.js` (the tlsnotary Wise attestation
normalization / validation / receipt-hash pipeline).

Modelling conventions, used throughout:

* JavaScript strings are Lean `String`s; every string operation the source
  uses (`trim`, `toLowerCase`, `endsWith`, `split`, …) is re-implemented
  structurally over `List Char` so that all definitions evaluate inside the
  kernel.  JS `trim` strips Unicode whitespace; the model strips the four
  ASCII whitespace characters, which is exact on all inputs considered here.
* JavaScript numbers are modelled as integers (`Int`).  Every numeric value
  the embedded code paths handle is an integer-valued double, on which
  `Math.trunc` is the identity; where the source truncates, the model applies
  the (identity) truncation explicitly so that the correspondence with the
  source stays visible.
* `undefined` is modelled as `JSValue.null`: in every embedded code path the
  two are treated identically (`asRecord`, `typeof`-guards, truthiness).
* `node:crypto`'s SHA-256 is embedded in full (FIPS 180-4) over byte lists.
-/

/-- The four ASCII whitespace characters stripped by the model of JS `trim`. -/
def jsIsWs (c : Char) : Bool :=
  c = ' ' || c = '\t' || c = '\n' || c = '\r'

/-- Strip leading and trailing whitespace from a character list. -/
def trimChars (l : List Char) : List Char :=
  ((l.dropWhile jsIsWs).reverse.dropWhile jsIsWs).reverse

/-- Model of JS `String.prototype.trim`. -/
def sTrim (s : String) : String := ⟨trimChars s.data⟩

/-- ASCII lower-casing of one character (model of JS `toLowerCase`). -/
def charLower (c : Char) : Char :=
  if 65 ≤ c.toNat ∧ c.toNat ≤ 90 then Char.ofNat (c.toNat + 32) else c

/-- Model of JS `String.prototype.toLowerCase` (ASCII). -/
def sLower (s : String) : String := ⟨s.data.map charLower⟩

/-- Model of JS `String.prototype.endsWith`. -/
def sEndsWith (s t : String) : Bool := t.data.isSuffixOf s.data

/-- Model of JS `String.prototype.startsWith`. -/
def sStartsWith (s t : String) : Bool := t.data.isPrefixOf s.data

/-- Split a character list at every occurrence of the character `sep`. -/
def splitChar (sep : Char) : List Char → List (List Char)
  | [] => [[]]
  | c :: rest =>
    let tail := splitChar sep rest
    if c = sep then [] :: tail
    else
      match tail with
      | [] => [[c]]
      | hd :: tl => (c :: hd) :: tl

/-- Model of JS `String.prototype.split` with a one-character separator. -/
def sSplit (sep : Char) (s : String) : List String :=
  (splitChar sep s.data).map String.mk

/-- Model of JS `Array.prototype.join`: `undefined`/`null` entries would print
empty, but only strings are joined in the embedded code. -/
def jsJoin (sep : String) : List String → String
  | [] => ""
  | [x] => x
  | x :: rest => x ++ sep ++ jsJoin sep rest

/-- All characters are decimal digits (and the list is nonempty). -/
def allDigits : List Char → Bool
  | [] => false
  | l => l.all fun c => 48 ≤ c.toNat && c.toNat ≤ 57

/-- Numeric value of a digit list (most significant first). -/
def digitsVal (l : List Char) : Nat :=
  l.foldl (fun acc c => 10 * acc + (c.toNat - 48)) 0

/-- Model of JS `Number(string)` restricted to integer numerals: optional
sign followed by decimal digits (the trimmed-empty string converts to 0).
Non-integer numerals convert to `none` (the model's NaN); no embedded code
path feeds a fractional numeral to `Number`. -/
def jsNumberOfString (s : String) : Option Int :=
  match trimChars s.data with
  | [] => some 0
  | '+' :: ds => if allDigits ds then some (Int.ofNat (digitsVal ds)) else none
  | '-' :: ds => if allDigits ds then some (-(Int.ofNat (digitsVal ds))) else none
  | ds => if allDigits ds then some (Int.ofNat (digitsVal ds)) else none

/-- Model of JS `String(n)` for an integer-valued number. -/
def jsStringOfInt (n : Int) : String := toString n

/- ## SHA-256 (FIPS 180-4), the model of `node:crypto`'s sha256 -/

/-- Truncation to a 32-bit word. -/
def w32 (n : Nat) : Nat := n % 4294967296

/-- Right rotation of a 32-bit word. -/
def rotr32 (n x : Nat) : Nat := w32 ((x >>> n) ||| (x <<< (32 - n)))

def shaCh (x y z : Nat) : Nat := (x &&& y) ^^^ ((x ^^^ 4294967295) &&& z)

def shaMaj (x y z : Nat) : Nat := (x &&& y) ^^^ (x &&& z) ^^^ (y &&& z)

def bigSig0 (x : Nat) : Nat := rotr32 2 x ^^^ rotr32 13 x ^^^ rotr32 22 x

def bigSig1 (x : Nat) : Nat := rotr32 6 x ^^^ rotr32 11 x ^^^ rotr32 25 x

def smallSig0 (x : Nat) : Nat := rotr32 7 x ^^^ rotr32 18 x ^^^ (x >>> 3)

def smallSig1 (x : Nat) : Nat := rotr32 17 x ^^^ rotr32 19 x ^^^ (x >>> 10)

/-- The 64 SHA-256 round constants. -/
def shaK : List Nat :=
  [1116352408, 1899447441, 3049323471, 3921009573, 961987163,
   1508970993, 2453635748, 2870763221, 3624381080, 310598401,
   607225278, 1426881987, 1925078388, 2162078206, 2614888103,
   3248222580, 3835390401, 4022224774, 264347078, 604807628,
   770255983, 1249150122, 1555081692, 1996064986, 2554220882,
   2821834349, 2952996808, 3210313671, 3336571891, 3584528711,
   113926993, 338241895, 666307205, 773529912, 1294757372,
   1396182291, 1695183700, 1986661051, 2177026350, 2456956037,
   2730485921, 2820302411, 3259730800, 3345764771, 3516065817,
   3600352804, 4094571909, 275423344, 430227734, 506948616,
   659060556, 883997877, 958139571, 1322822218, 1537002063,
   1747873779, 1955562222, 2024104815, 2227730452, 2361852424,
   2428436474, 2756734187, 3204031479, 3329325298]

/-- Big-endian bytes of a 64-bit length field. -/
def be64 (n : Nat) : List Nat :=
  [w32 n >>> 56 % 256, n >>> 48 % 256, n >>> 40 % 256, n >>> 32 % 256,
   n >>> 24 % 256, n >>> 16 % 256, n >>> 8 % 256, n % 256]

/-- SHA-256 message padding: append `0x80`, zeros to 56 mod 64, then the
bit length as a big-endian 64-bit integer. -/
def shaPad (msg : List Nat) : List Nat :=
  let z := (119 - (msg.length % 64)) % 64
  msg ++ [0x80] ++ List.replicate z 0 ++ be64 (8 * msg.length)

/-- Split a byte list into 64-byte blocks (`fuel` bounds the recursion and is
instantiated with the list length, which suffices since every step drops at
least one element of a nonempty list). -/
def chunks64 : Nat → List Nat → List (List Nat)
  | 0, _ => []
  | _, [] => []
  | fuel + 1, l => l.take 64 :: chunks64 fuel (l.drop 64)

/-- Assemble big-endian 32-bit words from bytes. -/
def wordsOfBytes : List Nat → List Nat
  | b0 :: b1 :: b2 :: b3 :: rest =>
    (b0 <<< 24 ||| b1 <<< 16 ||| b2 <<< 8 ||| b3) :: wordsOfBytes rest
  | _ => []

/-- Extend the 16-word message schedule by `fuel` additional words. -/
def schedExtend : Nat → List Nat → List Nat
  | 0, w => w
  | fuel + 1, w =>
    let i := w.length
    let wi := w32 (smallSig1 (w.getD (i - 2) 0) + w.getD (i - 7) 0 +
      smallSig0 (w.getD (i - 15) 0) + w.getD (i - 16) 0)
    schedExtend fuel (w ++ [wi])

/-- The eight working variables of the SHA-256 compression function. -/
structure H8 where
  a : Nat
  b : Nat
  c : Nat
  d : Nat
  e : Nat
  f : Nat
  g : Nat
  h : Nat
deriving DecidableEq

/-- One pass of the 64 compression rounds (`kw` zips round constants with the
message schedule). -/
def compressRounds : List (Nat × Nat) → H8 → H8
  | [], st => st
  | (k, w) :: rest, st =>
    let t1 := w32 (st.h + bigSig1 st.e + shaCh st.e st.f st.g + k + w)
    let t2 := w32 (bigSig0 st.a + shaMaj st.a st.b st.c)
    compressRounds rest
      ⟨w32 (t1 + t2), st.a, st.b, st.c, w32 (st.d + t1), st.e, st.f, st.g⟩

/-- Process one 64-byte block. -/
def shaBlock (st : H8) (block : List Nat) : H8 :=
  let w := schedExtend 48 (wordsOfBytes block)
  let r := compressRounds (shaK.zip w) st
  ⟨w32 (st.a + r.a), w32 (st.b + r.b), w32 (st.c + r.c), w32 (st.d + r.d),
   w32 (st.e + r.e), w32 (st.f + r.f), w32 (st.g + r.g), w32 (st.h + r.h)⟩

/-- The SHA-256 initial hash value. -/
def shaH0 : H8 :=
  ⟨1779033703, 3144134277, 1013904242, 2773480762,
   1359893119, 2600822924, 528734635, 1541459225⟩

/-- Big-endian bytes of one 32-bit word. -/
def bytesOfWord (n : Nat) : List Nat :=
  [n >>> 24 % 256, n >>> 16 % 256, n >>> 8 % 256, n % 256]

/-- SHA-256 digest (32 bytes) of a byte list. -/
def sha256Bytes (msg : List Nat) : List Nat :=
  let padded := shaPad msg
  let final := (chunks64 padded.length padded).foldl shaBlock shaH0
  bytesOfWord final.a ++ bytesOfWord final.b ++ bytesOfWord final.c ++
    bytesOfWord final.d ++ bytesOfWord final.e ++ bytesOfWord final.f ++
    bytesOfWord final.g ++ bytesOfWord final.h

/-- Lowercase hex digit for a value below 16. -/
def hexDig (n : Nat) : Char := Char.ofNat (if n < 10 then 48 + n else 87 + n)

/-- Lowercase hex encoding of a byte list. -/
def hexOfBytes (l : List Nat) : List Char :=
  l.flatMap fun b => [hexDig (b / 16 % 16), hexDig (b % 16)]

/-- UTF-8 encoding of one character. -/
def utf8Char (c : Char) : List Nat :=
  let n := c.toNat
  if n < 0x80 then [n]
  else if n < 0x800 then [0xc0 ||| (n >>> 6), 0x80 ||| (n &&& 0x3f)]
  else if n < 0x10000 then
    [0xe0 ||| (n >>> 12), 0x80 ||| ((n >>> 6) &&& 0x3f), 0x80 ||| (n &&& 0x3f)]
  else
    [0xf0 ||| (n >>> 18), 0x80 ||| ((n >>> 12) &&& 0x3f),
     0x80 ||| ((n >>> 6) &&& 0x3f), 0x80 ||| (n &&& 0x3f)]

/-- UTF-8 bytes of a string. -/
def utf8Bytes (s : String) : List Nat := s.data.flatMap utf8Char

/-- Embeds `sha256Hex` (src/lib.js:3-5): a `0x`-prefixed lowercase hex SHA-256
digest of the UTF-8 bytes of the input. -/
def sha256Hex (value : String) : String :=
  "0x" ++ String.mk (hexOfBytes (sha256Bytes (utf8Bytes value)))

/- ## The JavaScript value domain -/

mutual
/-- A JSON-like JavaScript value.  Numbers are restricted to integers (see the
module conventions); `undefined` is identified with `null`. -/
inductive JSValue where
  | null : JSValue
  | bool (b : Bool) : JSValue
  | num (n : Int) : JSValue
  | str (s : String) : JSValue
  | arr (items : JSList) : JSValue
  | obj (fields : JSFields) : JSValue
deriving DecidableEq
/-- A list of JavaScript values (spine of an array). -/
inductive JSList where
  | nil : JSList
  | cons (hd : JSValue) (tl : JSList) : JSList
deriving DecidableEq
/-- Ordered fields of a JavaScript object. -/
inductive JSFields where
  | nil : JSFields
  | cons (key : String) (value : JSValue) (tl : JSFields) : JSFields
deriving DecidableEq
end

/-- Plain-list view of a `JSList`. -/
def JSList.toList : JSList → List JSValue
  | .nil => []
  | .cons hd tl => hd :: tl.toList

/-- Build a `JSList` from a plain list. -/
def JSList.ofList : List JSValue → JSList
  | [] => .nil
  | hd :: tl => .cons hd (JSList.ofList tl)

/-- Plain-list view of `JSFields`. -/
def JSFields.toList : JSFields → List (String × JSValue)
  | .nil => []
  | .cons k v tl => (k, v) :: tl.toList

/-- Build `JSFields` from a plain association list. -/
def JSFields.ofList : List (String × JSValue) → JSFields
  | [] => .nil
  | (k, v) :: tl => .cons k v (JSFields.ofList tl)

/-- Array construction helper. -/
def jsA (l : List JSValue) : JSValue := .arr (JSList.ofList l)

/-- Object construction helper. -/
def jsO (l : List (String × JSValue)) : JSValue := .obj (JSFields.ofList l)

/-- Property access `v[k]`: `JSValue.null` stands for the `undefined` a JS
property read yields when the key is absent or the receiver is not an object
(arrays expose only index properties, and no embedded code path reads an
index property by name). -/
def jsGet (v : JSValue) (k : String) : JSValue :=
  match v with
  | .obj fields => go fields
  | _ => .null
where
  go : JSFields → JSValue
    | .nil => .null
    | .cons k' v' tl => if k' = k then v' else go tl

/-- Model of `Object.keys`: field names of an object in insertion order,
index strings for an array, empty otherwise. -/
def jsKeys (v : JSValue) : List String :=
  match v with
  | .obj fields => fields.toList.map Prod.fst
  | .arr items => (List.range items.toList.length).map (fun i => toString i)
  | _ => []

/-- Embeds `asRecord` (src/lib.js:7-10): any falsy or non-object value
becomes the empty object; objects and arrays (both `typeof "object"` and
truthy in JS) pass through unchanged. -/
def asRecord (value : JSValue) : JSValue :=
  match value with
  | .obj _ => value
  | .arr _ => value
  | _ => .obj .nil

/- ## Model of `JSON.parse` and `JSON.stringify` -/

/-- Skip JSON whitespace (space, tab, line feed, carriage return). -/
def skipWs (l : List Char) : List Char := l.dropWhile jsIsWs

/-- Parse a JSON integer numeral: optional minus, then `0` or a nonzero-led
digit run.  A following `.`, `e` or `E` makes the model reject the input
(JavaScript numbers are modelled as integers; no embedded code path feeds a
fractional numeral to `JSON.parse`). -/
def parseJsonInt (l : List Char) : Option (Int × List Char) :=
  match l with
  | '-' :: rest => (go rest).map fun (n, r) => (-(Int.ofNat n), r)
  | _ => (go l).map fun (n, r) => (Int.ofNat n, r)
where
  go : List Char → Option (Nat × List Char)
    | [] => none
    | c :: rest =>
      if c = '0' then
        match rest with
        | d :: _ =>
          if (48 ≤ d.toNat && d.toNat ≤ 57) || d = '.' || d = 'e' || d = 'E' then none
          else some (0, rest)
        | [] => some (0, [])
      else if 49 ≤ c.toNat && c.toNat ≤ 57 then
        let ds := rest.takeWhile fun d => 48 ≤ d.toNat && d.toNat ≤ 57
        let rest' := rest.dropWhile fun d => 48 ≤ d.toNat && d.toNat ≤ 57
        match rest' with
        | d :: _ =>
          if d = '.' || d = 'e' || d = 'E' then none
          else some (digitsVal (c :: ds), rest')
        | [] => some (digitsVal (c :: ds), [])
      else none

/-- Value of one hex digit, if any. -/
def hexVal (c : Char) : Option Nat :=
  if 48 ≤ c.toNat ∧ c.toNat ≤ 57 then some (c.toNat - 48)
  else if 97 ≤ c.toNat ∧ c.toNat ≤ 102 then some (c.toNat - 87)
  else if 65 ≤ c.toNat ∧ c.toNat ≤ 70 then some (c.toNat - 55)
  else none

/-- Parse the body of a JSON string literal (after the opening quote),
returning the decoded characters and the remainder after the closing quote. -/
def parseJsonStr : Nat → List Char → Option (List Char × List Char)
  | 0, _ => none
  | fuel + 1, l =>
    match l with
    | [] => none
    | '"' :: rest => some ([], rest)
    | '\\' :: esc =>
      match esc with
      | '"' :: r => (parseJsonStr fuel r).map fun (cs, r') => ('"' :: cs, r')
      | '\\' :: r => (parseJsonStr fuel r).map fun (cs, r') => ('\\' :: cs, r')
      | '/' :: r => (parseJsonStr fuel r).map fun (cs, r') => ('/' :: cs, r')
      | 'b' :: r => (parseJsonStr fuel r).map fun (cs, r') => ('\x08' :: cs, r')
      | 'f' :: r => (parseJsonStr fuel r).map fun (cs, r') => ('\x0c' :: cs, r')
      | 'n' :: r => (parseJsonStr fuel r).map fun (cs, r') => ('\n' :: cs, r')
      | 'r' :: r => (parseJsonStr fuel r).map fun (cs, r') => ('\r' :: cs, r')
      | 't' :: r => (parseJsonStr fuel r).map fun (cs, r') => ('\t' :: cs, r')
      | 'u' :: h1 :: h2 :: h3 :: h4 :: r =>
        match hexVal h1, hexVal h2, hexVal h3, hexVal h4 with
        | some a, some b, some c, some d =>
          let n := ((a * 16 + b) * 16 + c) * 16 + d
          if h : n.isValidChar then
            (parseJsonStr fuel r).map fun (cs, r') => (Char.ofNatAux n h :: cs, r')
          else none
        | _, _, _, _ => none
      | _ => none
    | c :: rest =>
      if c.toNat < 32 then none
      else (parseJsonStr fuel rest).map fun (cs, r') => (c :: cs, r')

/-- Insert a field into object fields the way `JSON.parse` treats duplicate
keys: a repeated key keeps its first position but takes the later value. -/
def insertField (fields : JSFields) (k : String) (v : JSValue) : JSFields :=
  match fields with
  | .nil => .cons k v .nil
  | .cons k' v' tl =>
    if k' = k then .cons k' v tl else .cons k' v' (insertField tl k v)

mutual
/-- Parse one JSON value (fuel-bounded recursive-descent; the fuel is
instantiated with the input length, which dominates the nesting depth). -/
def parseJsonVal : Nat → List Char → Option (JSValue × List Char)
  | 0, _ => none
  | fuel + 1, l =>
    match skipWs l with
    | 'n' :: 'u' :: 'l' :: 'l' :: rest => some (.null, rest)
    | 't' :: 'r' :: 'u' :: 'e' :: rest => some (.bool true, rest)
    | 'f' :: 'a' :: 'l' :: 's' :: 'e' :: rest => some (.bool false, rest)
    | '"' :: rest => (parseJsonStr fuel rest).map fun (cs, r) => (.str ⟨cs⟩, r)
    | '[' :: rest =>
      (match skipWs rest with
       | ']' :: r => some (.arr .nil, r)
       | l' => (parseJsonItems fuel l').map fun (items, r) => (.arr items, r))
    | '{' :: rest =>
      (match skipWs rest with
       | '}' :: r => some (.obj .nil, r)
       | l' =>
         (parseJsonRawFields fuel l').map fun (pairs, r) =>
           (.obj (pairs.foldl (fun acc kv => insertField acc kv.1 kv.2) .nil), r))
    | l' => (parseJsonInt l').map fun (n, r) => (.num n, r)

/-- Parse the comma-separated items of a nonempty JSON array up to `]`. -/
def parseJsonItems : Nat → List Char → Option (JSList × List Char)
  | 0, _ => none
  | fuel + 1, l =>
    (parseJsonVal fuel l).bind fun (v, rest) =>
      match skipWs rest with
      | ',' :: r => (parseJsonItems fuel r).map fun (tl, r') => (.cons v tl, r')
      | ']' :: r => some (.cons v .nil, r)
      | _ => none

/-- Parse the comma-separated fields of a nonempty JSON object up to `}`,
returning the `(key, value)` pairs in source order. -/
def parseJsonRawFields : Nat → List Char → Option (List (String × JSValue) × List Char)
  | 0, _ => none
  | fuel + 1, l =>
    match skipWs l with
    | '"' :: rest =>
      (parseJsonStr fuel rest).bind fun (ks, r1) =>
        match skipWs r1 with
        | ':' :: r2 =>
          (parseJsonVal fuel r2).bind fun (v, r3) =>
            match skipWs r3 with
            | ',' :: r4 =>
              (parseJsonRawFields fuel r4).map fun (tl, r') => ((⟨ks⟩, v) :: tl, r')
            | '}' :: r4 => some ([(⟨ks⟩, v)], r4)
            | _ => none
        | _ => none
    | _ => none
end

/-- Model of `JSON.parse`: parse one value and require only whitespace to
remain; `none` models a thrown `SyntaxError`. -/
def jsonParse (s : String) : Option JSValue :=
  match parseJsonVal (s.data.length + 1) s.data with
  | some (v, rest) => if skipWs rest = [] then some v else none
  | none => none

/-- JSON string-literal escaping of one character, as `JSON.stringify`
performs it. -/
def escChar (c : Char) : List Char :=
  if c = '"' then ['\\', '"']
  else if c = '\\' then ['\\', '\\']
  else if c = '\x08' then ['\\', 'b']
  else if c = '\x0c' then ['\\', 'f']
  else if c = '\n' then ['\\', 'n']
  else if c = '\r' then ['\\', 'r']
  else if c = '\t' then ['\\', 't']
  else if c.toNat < 32 then
    ['\\', 'u', '0', '0', hexDig (c.toNat / 16), hexDig (c.toNat % 16)]
  else [c]

/-- A JSON string literal for `s`. -/
def jsonQuote (s : String) : String :=
  ⟨'"' :: s.data.flatMap escChar ++ ['"']⟩

mutual
/-- Model of `JSON.stringify` on the `JSValue` domain (no `undefined`,
functions or cycles occur in the embedded payloads). -/
def jsonStringify : JSValue → String
  | .null => "null"
  | .bool b => if b then "true" else "false"
  | .num n => toString n
  | .str s => jsonQuote s
  | .arr items => "[" ++ jsJoin "," (stringifyItems items) ++ "]"
  | .obj fields => "\x7b" ++ jsJoin "," (stringifyFields fields) ++ "\x7d"

/-- Serialized elements of an array. -/
def stringifyItems : JSList → List String
  | .nil => []
  | .cons hd tl => jsonStringify hd :: stringifyItems tl

/-- Serialized `"key":value` members of an object. -/
def stringifyFields : JSFields → List String
  | .nil => []
  | .cons k v tl => (jsonQuote k ++ ":" ++ jsonStringify v) :: stringifyFields tl
end

/- ## Embeddings of src/lib.js -/

/-- One character of `[0-9a-fA-F]`. -/
def isHexChar (c : Char) : Bool :=
  (48 ≤ c.toNat && c.toNat ≤ 57) || (97 ≤ c.toNat && c.toNat ≤ 102) ||
    (65 ≤ c.toNat && c.toNat ≤ 70)

/-- Embeds `isHexText` (src/lib.js:12-14): `/^[0-9a-fA-F]+$/.test(value)`. -/
def isHexText (s : String) : Bool :=
  !s.data.isEmpty && s.data.all isHexChar

/-- Embeds `normalizeHexString` (src/lib.js:16-27). -/
def normalizeHexString (value : JSValue) : Option String :=
  match value with
  | .str s =>
    let trimmed := sTrim s
    if trimmed = "" then none
    else if sStartsWith trimmed "0x" && isHexText ⟨trimmed.data.drop 2⟩ then
      some (sLower ⟨trimmed.data.drop 2⟩)
    else if isHexText trimmed then some (sLower trimmed)
    else none
  | _ => none

/-- Embeds `maybeParseJsonString` (src/lib.js:29-38). -/
def maybeParseJsonString (value : JSValue) : Option JSValue :=
  match value with
  | .str s =>
    let trimmed := sTrim s
    if !sStartsWith trimmed "\x7b" && !sStartsWith trimmed "[" then none
    else jsonParse trimmed
  | _ => none

/-- Embeds `pickString` (src/lib.js:40-46): first key whose value is a string
with nonempty trim; returns the trimmed value. -/
def pickString (input : JSValue) : List String → Option String
  | [] => none
  | key :: rest =>
    match jsGet input key with
    | .str s => if sTrim s ≠ "" then some (sTrim s) else pickString input rest
    | _ => pickString input rest

/-- Embeds `pickNumber` (src/lib.js:48-58): first key holding a finite number,
or a nonempty string that converts to a finite number. -/
def pickNumber (input : JSValue) : List String → Option Int
  | [] => none
  | key :: rest =>
    match jsGet input key with
    | .num n => some n
    | .str s =>
      if sTrim s ≠ "" then
        match jsNumberOfString (sTrim s) with
        | some n => some n
        | none => pickNumber input rest
      else pickNumber input rest
    | _ => pickNumber input rest

/-- JS truthiness of a string-or-`undefined` value (`if (x)` in the source). -/
def optTruthy (o : Option String) : Bool :=
  match o with
  | some s => s ≠ ""
  | none => false

/-- First truthy hit of a candidate sequence (the `if (nested) return nested`
loop pattern of the source). -/
def firstTruthy : List (Option String) → Option String
  | [] => none
  | o :: rest => if optTruthy o then o else firstTruthy rest

/-- The ordered candidate-key list of `extractPresentationHex`
(src/lib.js:74-82). -/
def presentationCandidateKeys : List String :=
  ["presentationHex", "presentation_hex", "presentation", "proof", "proofHex",
   "attestationHex", "data"]

/-- Recursion core of `extractPresentationHex` (src/lib.js:60-95).  The source
threads a `depth` that starts at 0, gives up when `depth > 5` and increments
on every recursive call; the model threads the equivalent fuel `6 - depth`,
which decrements on every call and gives up at 0. -/
def extractPresentationHexGo : Nat → JSValue → Option String
  | 0, _ => none
  | fuel + 1, attestation =>
    let direct := normalizeHexString attestation
    if optTruthy direct then direct
    else
      let parsedHit :=
        match maybeParseJsonString attestation with
        | some parsed =>
          let nested := extractPresentationHexGo fuel parsed
          if optTruthy nested then nested else none
        | none => none
      if optTruthy parsedHit then parsedHit
      else
        let record := asRecord attestation
        if (jsKeys record).length = 0 then none
        else
          let fromKeys := firstTruthy (presentationCandidateKeys.map fun key =>
            extractPresentationHexGo fuel (jsGet record key))
          if optTruthy fromKeys then fromKeys
          else
            let meta := asRecord (jsGet record "meta")
            firstTruthy (presentationCandidateKeys.map fun key =>
              extractPresentationHexGo fuel (jsGet meta key))

/-- Embeds `extractPresentationHex` (src/lib.js:60-95). -/
def extractPresentationHex (attestation : JSValue) (depth : Nat := 0) : Option String :=
  extractPresentationHexGo (6 - depth) attestation

/-- Embeds `parseAllowedHostSuffixes` (src/lib.js:226-232). -/
def parseAllowedHostSuffixes (raw : Option String) : List String :=
  let value := raw.getD "wise.com,transferwise.com"
  ((sSplit ',' value).map fun item => sLower (sTrim item)).filter (· ≠ "")

/-- Embeds `hostMatchesAllowedSuffix` (src/lib.js:234-237).  `String(host||"")`
is the identity on the string hosts the model considers. -/
def hostMatchesAllowedSuffix (host : String) (suffixes : List String) : Bool :=
  let normalized := sLower (sTrim host)
  suffixes.any fun suffix => normalized = suffix || sEndsWith normalized ("." ++ suffix)

/-- Model of `String(value || "")` for a string-or-`undefined` value. -/
def jsOrEmpty (value : Option String) : String :=
  match value with
  | some s => s
  | none => ""

/-- Embeds `isUnsignedIntegerText` (src/lib.js:239-241):
`/^[0-9]+$/.test(String(value || "").trim())`; the values reaching it are
strings or `undefined`. -/
def isUnsignedIntegerText (value : Option String) : Bool :=
  allDigits (trimChars (jsOrEmpty value).data)

/-- The output record of `normalizeVerifierData` (src/lib.js:192-224): the
five canonical claim fields, each possibly absent. -/
structure NormalizedClaim where
  amount : Option String
  timestamp : Option Int
  payerRef : Option String
  transferId : Option String
  sourceHost : Option String
deriving DecidableEq

/-- `Math.trunc` on the integer-valued numbers of the model. -/
def mathTrunc (n : Int) : Int := n

/-- String interpolation of a string-or-`undefined` value (JS templates print
`undefined` for the absent case). -/
def tmpl (value : Option String) : String :=
  match value with
  | some s => s
  | none => "undefined"

/-- The `amount mismatch` detail string of `validateExpected` (built over
`data` so that its literal prefix is kernel-visible). -/
def amountMsg (e a : String) : String :=
  ⟨"amount mismatch: expected=".data ++ e.data ++ ", actual=".data ++ a.data⟩

/-- The `timestamp out of skew` detail string of `validateExpected`. -/
def timestampMsg (lhs rhs : Int) : String :=
  ⟨"timestamp out of skew: expected=".data ++ (toString lhs).data ++
    ", actual=".data ++ (toString rhs).data⟩

/-- The `transferId mismatch` detail string of `validateExpected`. -/
def transferIdMsg (e a : String) : String :=
  ⟨"transferId mismatch: expected=".data ++ e.data ++ ", actual=".data ++ a.data⟩

/-- The `payerRef mismatch` detail string of `validateExpected`. -/
def payerRefMsg (e a : String) : String :=
  ⟨"payerRef mismatch: expected=".data ++ e.data ++ ", actual=".data ++ a.data⟩

/-- `!expected || typeof expected !== "object"` is false exactly for objects
and arrays (both truthy and of `typeof "object"`; `null` is falsy). -/
def isObjectLike (v : JSValue) : Bool :=
  match v with
  | .obj _ => true
  | .arr _ => true
  | _ => false

/-- The amount push site of `validateExpected` (src/lib.js:247-254): at most
one `amount mismatch` entry, produced under the source conjunction
`typeof expected.amount === "string" && isUnsignedIntegerText(expected.amount)
&& isUnsignedIntegerText(normalized.amount)
&& expected.amount !== normalized.amount`. -/
def amountCheck (expected : JSValue) (normalized : NormalizedClaim) : List String :=
  match jsGet expected "amount" with
  | .str ea =>
    if isUnsignedIntegerText (some ea) && isUnsignedIntegerText normalized.amount
       && decide (some ea ≠ normalized.amount) then
      [amountMsg ea (tmpl normalized.amount)]
    else []
  | _ => []

/-- The timestamp push site of `validateExpected` (src/lib.js:256-262):
`lhs = Math.trunc(expected.timestamp)`,
`rhs = Math.trunc(Number(normalized.timestamp || 0))`, entry produced when
`Math.abs(lhs - rhs) > 30 * 60`. -/
def timestampCheck (expected : JSValue) (normalized : NormalizedClaim) : List String :=
  match jsGet expected "timestamp" with
  | .num q =>
    let lhs := mathTrunc q
    let rhs := mathTrunc (match normalized.timestamp with
      | some t => if t = 0 then 0 else t
      | none => 0)
    if (lhs - rhs).natAbs > 30 * 60 then [timestampMsg lhs rhs] else []
  | _ => []

/-- The transferId push site of `validateExpected` (src/lib.js:264-272). -/
def transferIdCheck (expected : JSValue) (normalized : NormalizedClaim) : List String :=
  match jsGet expected "transferId", normalized.transferId with
  | .str et, some nt =>
    if sTrim et ≠ "" && sTrim nt ≠ "" && decide (sTrim et ≠ sTrim nt) then
      [transferIdMsg et nt]
    else []
  | _, _ => []

/-- The payerRef push site of `validateExpected` (src/lib.js:274-282). -/
def payerRefCheck (expected : JSValue) (normalized : NormalizedClaim) : List String :=
  match jsGet expected "payerRef", normalized.payerRef with
  | .str ep, some np =>
    if sTrim ep ≠ "" && sTrim np ≠ "" && decide (sTrim ep ≠ sTrim np) then
      [payerRefMsg ep np]
    else []
  | _, _ => []

/-- Embeds `validateExpected` (src/lib.js:243-285): after the
`!expected || typeof expected !== "object"` early return, the four
`errors.push` sites accumulate their detail strings in source order. -/
def validateExpected (expected : JSValue) (normalized : NormalizedClaim) : List String :=
  if !isObjectLike expected then []
  else
    amountCheck expected normalized ++ timestampCheck expected normalized ++
      transferIdCheck expected normalized ++ payerRefCheck expected normalized

/-- Array elements stringify as `""` when `undefined` under `Array.join`. -/
def joinElt (value : Option String) : String :=
  match value with
  | some s => s
  | none => ""

/-- Embeds `buildWiseReceiptHash` (src/lib.js:287-300): hash of the
pipe-joined array `["wise", sourceHost, transferId, payerRef, amount,
String(Math.trunc(timestamp)), innerDigest]` where `innerDigest` is the hash
of the JSON serialization of the attestation. -/
def buildWiseReceiptHash (normalized : NormalizedClaim) (attestation : JSValue) : String :=
  let attestationDigest := sha256Hex (jsonStringify attestation)
  sha256Hex (jsJoin "|"
    ["wise",
     joinElt normalized.sourceHost,
     joinElt normalized.transferId,
     joinElt normalized.payerRef,
     joinElt normalized.amount,
     (match normalized.timestamp with
      | some t => jsStringOfInt (mathTrunc t)
      | none => "NaN"),
     attestationDigest])

/- ## Transcript transfer scanner (src/lib.js:302-474) -/

/-- Embeds `toFiniteNumber` (src/lib.js:302-309). -/
def toFiniteNumber (value : JSValue) : Option Int :=
  match value with
  | .num n => some n
  | .str s => if sTrim s ≠ "" then jsNumberOfString (sTrim s) else none
  | _ => none

/-- Decimal digit test. -/
def isDigitChar (c : Char) : Bool := 48 ≤ c.toNat && c.toNat ≤ 57

/-- Days of a month in the proleptic Gregorian calendar. -/
def daysInMonthN (y m : Nat) : Nat :=
  if m = 2 then (if y % 4 = 0 ∧ (y % 100 ≠ 0 ∨ y % 400 = 0) then 29 else 28)
  else if m = 4 ∨ m = 6 ∨ m = 9 ∨ m = 11 then 30 else 31

/-- Days from the Unix epoch to a civil date (standard era/year-of-era
computation, exact for the four-digit years accepted below). -/
def daysSinceEpoch (y m d : Nat) : Int :=
  let y' := y - (if m ≤ 2 then 1 else 0)
  let era := y' / 400
  let yoe := y' % 400
  let doy := (153 * (if m > 2 then m - 3 else m + 9) + 2) / 5 + (d - 1)
  let doe := yoe * 365 + yoe / 4 - yoe / 100 + doy
  (era * 146097 + doe : Int) - 719468

/-- Model of `Date.parse` restricted to date-only ISO strings `YYYY-MM-DD`
(parsed as UTC midnight, result in milliseconds); every other input is
modelled as unparseable.  No embedded claim exercises other date formats. -/
def dateParse (s : String) : Option Int :=
  match s.data with
  | [y1, y2, y3, y4, '-', m1, m2, '-', d1, d2] =>
    if [y1, y2, y3, y4, m1, m2, d1, d2].all isDigitChar then
      let y := digitsVal [y1, y2, y3, y4]
      let m := digitsVal [m1, m2]
      let d := digitsVal [d1, d2]
      if 1 ≤ m ∧ m ≤ 12 ∧ 1 ≤ d ∧ d ≤ daysInMonthN y m then
        some (86400000 * daysSinceEpoch y m d)
      else none
    else none
  | _ => none

/-- Embeds `toUnixSeconds` (src/lib.js:311-322): finite numbers above 10¹²
are treated as milliseconds; otherwise nonempty strings go through
`Date.parse`; `Math.trunc` of an integer quotient is `Int.tdiv`. -/
def toUnixSeconds (value : JSValue) : Option Int :=
  match toFiniteNumber value with
  | some f => some (if f > 1000000000000 then Int.tdiv f 1000 else mathTrunc f)
  | none =>
    match value with
    | .str s =>
      if sTrim s ≠ "" then (dateParse (sTrim s)).map fun ms => Int.tdiv ms 1000
      else none
    | _ => none

/-- Embeds `tryParseJson` (src/lib.js:324-333) on the string arguments it
receives. -/
def tryParseJson (text : String) : Option JSValue :=
  let trimmed := sTrim text
  if trimmed = "" then none else jsonParse trimmed

/-- Match `\r?\n` at the head of the input. -/
def matchNl : List Char → Option (List Char)
  | '\r' :: '\n' :: rest => some rest
  | '\n' :: rest => some rest
  | _ => none

/-- Match the blank-line separator `\r?\n\r?\n` at the head of the input. -/
def matchBlankSep (l : List Char) : Option (List Char) :=
  (matchNl l).bind matchNl

/-- Split on every blank-line separator (the source's
`text.split(/\r?\n\r?\n/g)`); fuel is the input length, which dominates the
number of consumed characters. -/
def splitBlankGo : Nat → List Char → List Char → List (List Char)
  | 0, acc, l => [acc.reverse ++ l]
  | fuel + 1, acc, l =>
    match l with
    | [] => [acc.reverse]
    | c :: rest =>
      match matchBlankSep l with
      | some r => acc.reverse :: splitBlankGo fuel [] r
      | none => splitBlankGo fuel (c :: acc) rest

/-- String-level wrapper of `splitBlankGo`. -/
def splitBlankLines (text : String) : List String :=
  (splitBlankGo (text.data.length + 1) [] text.data).map String.mk

/-- Insertion-ordered set add (the source's `Set.prototype.add`). -/
def addUnique (l : List String) (s : String) : List String :=
  if s ∈ l then l else l ++ [s]

/-- Model of `String.prototype.indexOf` for one character. -/
def idxOf (l : List Char) (c : Char) : Option Nat := l.findIdx? (· = c)

/-- Model of `String.prototype.lastIndexOf` for one character. -/
def lastIdxOf (l : List Char) (c : Char) : Option Nat :=
  (l.reverse.findIdx? (· = c)).map fun i => l.length - 1 - i

/-- Embeds `extractJsonBodiesFromRecv` (src/lib.js:335-363): the union of the
blank-line-split sections that look like JSON, the first-`{`-to-last-`}`
slice, and the first-`[`-to-last-`]` slice, each parsed with failures
dropped. -/
def extractJsonBodiesFromRecv (recv : String) : List JSValue :=
  let text := recv
  if text = "" then []
  else
    let sections := ((splitBlankLines text).map sTrim).filter (· ≠ "")
    let cands1 := sections.foldl (fun acc part =>
      if sStartsWith part "\x7b" || sStartsWith part "[" then addUnique acc part
      else acc) []
    let cands2 :=
      match idxOf text.data '{', lastIdxOf text.data '}' with
      | some fo, some lo =>
        if lo > fo then addUnique cands1 ⟨(text.data.drop fo).take (lo + 1 - fo)⟩
        else cands1
      | _, _ => cands1
    let cands3 :=
      match idxOf text.data '[', lastIdxOf text.data ']' with
      | some fa, some la =>
        if la > fa then addUnique cands2 ⟨(text.data.drop fa).take (la + 1 - fa)⟩
        else cands2
      | _, _ => cands2
    cands3.foldl (fun acc candidate =>
      match tryParseJson candidate with
      | some v => acc ++ [v]
      | none => acc) []

mutual
/-- Embeds `flattenArrays` (src/lib.js:365-377): collect, depth first, every
array reachable in the value (an array is pushed before its contents are
explored, object fields are explored in insertion order). -/
def flattenArrays : JSValue → List JSList
  | .arr items => items :: flattenInList items
  | .obj fields => flattenInFields fields
  | _ => []

/-- Arrays reachable from the items of an array, in order. -/
def flattenInList : JSList → List JSList
  | .nil => []
  | .cons hd tl => flattenArrays hd ++ flattenInList tl

/-- Arrays reachable from the field values of an object, in order. -/
def flattenInFields : JSFields → List JSList
  | .nil => []
  | .cons _ v tl => flattenArrays v ++ flattenInFields tl
end

/-- Case-insensitive literal match at the head of the input, returning the
remainder. -/
def matchWordCI : List Char → List Char → Option (List Char)
  | [], l => some l
  | _, [] => none
  | w :: ws, c :: cs =>
    if charLower c = charLower w then matchWordCI ws cs else none

/-- The tail `\s*#?\s*([0-9]{6,})` of the transaction-number pattern. -/
def txTail (l : List Char) : Option (List Char) :=
  let r3 := l.dropWhile jsIsWs
  let r4 := match r3 with
    | '#' :: t => t
    | _ => r3
  let r5 := r4.dropWhile jsIsWs
  let digs := r5.takeWhile isDigitChar
  if digs.length ≥ 6 then some digs else none

/-- Try the transaction-number pattern anchored at the head of the input:
`transaction\s*(?:number|id)?\s*#?\s*([0-9]{6,})`, with the alternatives of
the optional group tried in regex order (`number`, `id`, empty). -/
def txAt (l : List Char) : Option (List Char) :=
  match matchWordCI "transaction".data l with
  | none => none
  | some r0 =>
    let r1 := r0.dropWhile jsIsWs
    match (matchWordCI "number".data r1).bind txTail with
    | some d => some d
    | none =>
      match (matchWordCI "id".data r1).bind txTail with
      | some d => some d
      | none => txTail r1

/-- Leftmost match of the transaction-number pattern (the source's
case-insensitive `RegExp.prototype.exec`, capture group 1). -/
def txSearch : List Char → Option (List Char)
  | [] => none
  | c :: rest =>
    match txAt (c :: rest) with
    | some d => some d
    | none => txSearch rest

/-- The record produced by `normalizeTransferItem` (src/lib.js:379-429). -/
structure TransferRec where
  amount : String
  timestamp : Option Int
  payerRef : String
  transferId : String
  status : String
  currency : String
deriving DecidableEq

/-- Embeds `normalizeTransferItem` (src/lib.js:379-429). -/
def normalizeTransferItem (item : JSValue) : Option TransferRec :=
  let row := asRecord item
  if (jsKeys row).length = 0 then none
  else
    let amount :=
      (pickString row ["amount", "amountText", "value", "paymentAmount", "transferAmount"]).orElse
        fun _ => pickString (asRecord (jsGet row "amount")) ["value", "text", "amount", "formatted"]
    let timestampRaw : JSValue :=
      match pickNumber row ["timestamp", "time", "createdAtTs", "created_at_ts"] with
      | some n => .num n
      | none =>
        match pickString row ["createdAt", "created_at", "paidAt", "date", "time"] with
        | some s => .str s
        | none => .null
    let payerRef :=
      ((pickString row ["payerRef", "payer", "sender", "from", "counterparty", "name"]).orElse
        fun _ => pickString (asRecord (jsGet row "sender")) ["name", "id"]).orElse
        fun _ => pickString (asRecord (jsGet row "counterparty")) ["name", "id"]
    let transferText :=
      ((pickString row ["description", "details", "title", "note"]).orElse
        fun _ => pickString (asRecord (jsGet row "transaction"))
          ["description", "details", "title", "note"]).getD ""
    let transferNumber := (txSearch transferText.data).map String.mk
    let transferId :=
      ((pickString row
        ["transferId", "paymentId", "transactionId", "transactionNumber",
         "transactionNo", "transaction_number", "id", "reference"]).orElse
        fun _ => pickString (asRecord (jsGet row "transaction"))
          ["id", "reference", "transactionId", "transactionNumber", "transactionNo"]).orElse
        fun _ => transferNumber
    let status := pickString row ["status", "state", "paymentStatus"]
    let currency :=
      (pickString row ["currency", "ccy"]).orElse
        fun _ => pickString (asRecord (jsGet row "amount")) ["currency", "ccy"]
    if !optTruthy amount && !optTruthy transferId && !optTruthy payerRef then none
    else some
      { amount := amount.getD ""
        timestamp := toUnixSeconds timestampRaw
        payerRef := payerRef.getD ""
        transferId := transferId.getD ""
        status := status.getD ""
        currency := currency.getD "" }

/-- Model of `Number(limit)` in `extractRecentTransfers`: `none` is NaN.
(`Number(null)` is really 0, but `0 || 5` and the NaN default agree on 5, so
identifying `undefined` with `null` is sound here too.) -/
def jsToNumber (v : JSValue) : Option Int :=
  match v with
  | .null => none
  | .bool b => some (if b then 1 else 0)
  | .num n => some n
  | .str s => jsNumberOfString s
  | .arr _ => none
  | .obj _ => none

/-- The clamped record cap `Math.max(1, Math.min(10, Math.trunc(Number(limit)
|| 5)))` of `extractRecentTransfers` (src/lib.js:432). -/
def recentMax (limit : JSValue) : Int :=
  let base : Int :=
    match jsToNumber limit with
    | some n => if n = 0 then 5 else n
    | none => 5
  max 1 (min 10 (mathTrunc base))

/-- Template-literal print of the optional timestamp inside the dedup key
(JS prints `undefined` for the absent case). -/
def tsTmpl (o : Option Int) : String :=
  match o with
  | some n => toString n
  | none => "undefined"

/-- The triple scan loop of `extractRecentTransfers` (src/lib.js:449-471),
flattened over the enumerated `(root, array, item)` entries it visits in the
same order; `seen` and `result` accumulate exactly as the source's `Set` and
output array do, and the loop stops as soon as `result` reaches `maxR`. -/
def scanTransfers (maxR : Nat) :
    List (Nat × Nat × Nat × JSValue) → List String → List TransferRec → List TransferRec
  | [], _, result => result
  | (ri, ai, ii, item) :: rest, seen, result =>
    match normalizeTransferItem item with
    | none => scanTransfers maxR rest seen result
    | some n =>
      let keyBase := n.transferId ++ "|" ++ tsTmpl n.timestamp ++ "|" ++ n.amount ++
        "|" ++ n.payerRef
      let hasStrongId := n.transferId ≠ "" || n.timestamp.isSome
      let key :=
        if hasStrongId then keyBase
        else keyBase ++ "|row:" ++ toString ri ++ ":" ++ toString ai ++ ":" ++ toString ii
      if key ∈ seen then scanTransfers maxR rest seen result
      else
        let result' := result ++ [n]
        if result'.length ≥ maxR then result'
        else scanTransfers maxR rest (seen ++ [key]) result'

/-- Embeds `extractRecentTransfers` (src/lib.js:431-474).  The attestation
root set is built with `asRecord` coercion; the parsed transcript bodies are
appended to `roots` without coercion, exactly as in the source. -/
def extractRecentTransfers (attestation : JSValue) (recv : String)
    (limit : JSValue := .num 5) : List TransferRec :=
  let maxR := (recentMax limit).toNat
  let attestationRecord := asRecord attestation
  let roots : List JSValue :=
    (if (jsKeys attestationRecord).length > 0 then
      [attestationRecord, asRecord (jsGet attestationRecord "claimData"),
       asRecord (jsGet attestationRecord "data"),
       asRecord (jsGet attestationRecord "fields")]
     else []) ++ extractJsonBodiesFromRecv recv
  let entries := roots.enum.flatMap fun p =>
    (flattenArrays p.2).enum.flatMap fun q =>
      q.2.toList.enum.map fun r => (p.1, q.1, r.1, r.2)
  scanTransfers maxR entries [] []

/-- The repository test's recv transcript: HTTP headers, a blank line, then
one JSON body holding 6 transfer objects (spec Scenario 3). -/
def recvScenario3 : String :=
  "HTTP/1.1 200 OK\r\ncontent-type: application/json\r\n\r\n" ++
  "\x7b\"transactions\":[\x7b\"id\":\"t1\",\"amount\":\"10\",\"timestamp\":1,\"payer\":\"a\"\x7d," ++
  "\x7b\"id\":\"t2\",\"amount\":\"20\",\"timestamp\":2,\"payer\":\"b\"\x7d," ++
  "\x7b\"id\":\"t3\",\"amount\":\"30\",\"timestamp\":3,\"payer\":\"c\"\x7d," ++
  "\x7b\"id\":\"t4\",\"amount\":\"40\",\"timestamp\":4,\"payer\":\"d\"\x7d," ++
  "\x7b\"id\":\"t5\",\"amount\":\"50\",\"timestamp\":5,\"payer\":\"e\"\x7d," ++
  "\x7b\"id\":\"t6\",\"amount\":\"60\",\"timestamp\":6,\"payer\":\"f\"\x7d]\x7d"

/- ## Helper lemmas on the detail strings -/

/- ## Auxiliary definitions used by the claim statements -/

/-- A lowercase hex digit character. -/
def isLowerHexChar (c : Char) : Bool :=
  (48 ≤ c.toNat && c.toNat ≤ 57) || (97 ≤ c.toNat && c.toNat ≤ 102)

/-- Modelled from the spec (§4.7 Algorithm sentence): the receipt digest
with the inner attestation digest placed first — `Hash( Hash(JSON(att))`
concatenated with `"wise" | sourceHost | transferId | payerRef | amount |
integer-truncated-timestamp, joined by "|" )`.  Written only to be compared
against the source's `buildWiseReceiptHash`. -/
def specOrderedReceiptHash (normalized : NormalizedClaim) (attestation : JSValue) : String :=
  let attestationDigest := sha256Hex (jsonStringify attestation)
  sha256Hex (jsJoin "|"
    [attestationDigest, "wise",
     joinElt normalized.sourceHost, joinElt normalized.transferId,
     joinElt normalized.payerRef, joinElt normalized.amount,
     (match normalized.timestamp with
      | some t => jsStringOfInt (mathTrunc t)
      | none => "NaN")])

/-- A hex leaf wrapped in `k` candidate-key (`presentationHex`) mappings. -/
def nestKey : Nat → JSValue → JSValue
  | 0, v => v
  | k + 1, v => jsO [("presentationHex", nestKey k v)]

/-- A hex leaf wrapped in `k` `meta`-plus-candidate-key double layers (each
layer is two structural levels but one probe step). -/
def nestMeta : Nat → JSValue → JSValue
  | 0, v => v
  | k + 1, v => jsO [("meta", jsO [("presentationHex", nestMeta k v)])]

/-- Modelled from the spec (§4.6 contract) as amended: the record cap is
`clamp(limitValue, 1, 10)` where `limitValue` is 5 when the limit is absent,
not a number, or numerically zero. -/
def specRecentCap (limit : JSValue) : Int :=
  let v : Int :=
    match jsToNumber limit with
    | some n => if n = 0 then 5 else n
    | none => 5
  max 1 (min 10 v)

/- ## Theorems -/

theorem amountMsg_ne_timestampMsg (e a : String) (l r : Int) :
    amountMsg e a ≠ timestampMsg l r := by
  intro h
  have h2 : "amount mi".data = "timestamp".data :=
    congrArg (fun s => s.data.take 9) h
  exact absurd h2 (by decide)

theorem amountMsg_ne_transferIdMsg (e a x y : String) :
    amountMsg e a ≠ transferIdMsg x y := by
  intro h
  have h2 : "amount mi".data = "transferI".data :=
    congrArg (fun s => s.data.take 9) h
  exact absurd h2 (by decide)

theorem amountMsg_ne_payerRefMsg (e a x y : String) :
    amountMsg e a ≠ payerRefMsg x y := by
  intro h
  have h2 : "amount mi".data = "payerRef ".data :=
    congrArg (fun s => s.data.take 9) h
  exact absurd h2 (by decide)

theorem timestampMsg_ne_transferIdMsg (l r : Int) (x y : String) :
    timestampMsg l r ≠ transferIdMsg x y := by
  intro h
  have h2 : "timestamp".data = "transferI".data :=
    congrArg (fun s => s.data.take 9) h
  exact absurd h2 (by decide)

theorem timestampMsg_ne_payerRefMsg (l r : Int) (x y : String) :
    timestampMsg l r ≠ payerRefMsg x y := by
  intro h
  have h2 : "timestamp".data = "payerRef ".data :=
    congrArg (fun s => s.data.take 9) h
  exact absurd h2 (by decide)

theorem transferIdMsg_ne_payerRefMsg (e a x y : String) :
    transferIdMsg e a ≠ payerRefMsg x y := by
  intro h
  have h2 : "transferI".data = "payerRef ".data :=
    congrArg (fun s => s.data.take 9) h
  exact absurd h2 (by decide)

theorem timestampMsg_not_mem_amountCheck (l r : Int) (e : JSValue) (c : NormalizedClaim) :
    timestampMsg l r ∉ amountCheck e c := by
  intro hmem
  unfold amountCheck at hmem
  split at hmem
  · split at hmem
    · simp only [List.mem_singleton] at hmem
      exact amountMsg_ne_timestampMsg _ _ l r hmem.symm
    · simp at hmem
  · simp at hmem

theorem timestampMsg_not_mem_transferIdCheck (l r : Int) (e : JSValue) (c : NormalizedClaim) :
    timestampMsg l r ∉ transferIdCheck e c := by
  intro hmem
  unfold transferIdCheck at hmem
  split at hmem
  · split at hmem
    · simp only [List.mem_singleton] at hmem
      exact timestampMsg_ne_transferIdMsg l r _ _ hmem
    · simp at hmem
  · simp at hmem

theorem timestampMsg_not_mem_payerRefCheck (l r : Int) (e : JSValue) (c : NormalizedClaim) :
    timestampMsg l r ∉ payerRefCheck e c := by
  intro hmem
  unfold payerRefCheck at hmem
  split at hmem
  · split at hmem
    · simp only [List.mem_singleton] at hmem
      exact timestampMsg_ne_payerRefMsg l r _ _ hmem
    · simp at hmem
  · simp at hmem

theorem amountMsg_not_mem_timestampCheck (x y : String) (e : JSValue) (c : NormalizedClaim) :
    amountMsg x y ∉ timestampCheck e c := by
  intro hmem
  unfold timestampCheck at hmem
  repeat' split at hmem
  all_goals simp_all [amountMsg_ne_timestampMsg]

theorem amountMsg_not_mem_transferIdCheck (x y : String) (e : JSValue) (c : NormalizedClaim) :
    amountMsg x y ∉ transferIdCheck e c := by
  intro hmem
  unfold transferIdCheck at hmem
  repeat' split at hmem
  all_goals simp_all [amountMsg_ne_transferIdMsg]

theorem amountMsg_not_mem_payerRefCheck (x y : String) (e : JSValue) (c : NormalizedClaim) :
    amountMsg x y ∉ payerRefCheck e c := by
  intro hmem
  unfold payerRefCheck at hmem
  repeat' split at hmem
  all_goals simp_all [amountMsg_ne_payerRefMsg]

theorem timestampCheck_mem_iff (e : JSValue) (q r : Int) (c : NormalizedClaim)
    (hts : jsGet e "timestamp" = JSValue.num q) (hct : c.timestamp = some r) :
    timestampMsg (mathTrunc q) (mathTrunc r) ∈ timestampCheck e c ↔
      1800 < (mathTrunc q - mathTrunc r).natAbs := by
  have hr : (if r = 0 then (0 : Int) else r) = r := by
    rcases eq_or_ne r 0 with h | h <;> simp [h]
  simp only [timestampCheck, hts, hct, hr]
  split <;> simp_all

/-- C6: with a finite numeric expected timestamp and a present claim
timestamp, `validateExpected` reports the skew violation exactly when the
absolute difference of the integer truncations exceeds 1800 seconds (so a
difference of exactly 1800 passes and 1801 fails). -/
theorem claim_C6 (e : JSValue) (q r : Int) (c : NormalizedClaim)
    (hobj : isObjectLike e = true) (hts : jsGet e "timestamp" = JSValue.num q)
    (hct : c.timestamp = some r) :
    timestampMsg (mathTrunc q) (mathTrunc r) ∈ validateExpected e c ↔
      1800 < (mathTrunc q - mathTrunc r).natAbs := by
  have hval : validateExpected e c = amountCheck e c ++ timestampCheck e c ++
      transferIdCheck e c ++ payerRefCheck e c := by
    simp [validateExpected, hobj]
  rw [hval]
  simp only [List.mem_append, timestampCheck_mem_iff e q r c hts hct,
    timestampMsg_not_mem_amountCheck, timestampMsg_not_mem_transferIdCheck,
    timestampMsg_not_mem_payerRefCheck, or_false, false_or]

/-- C6 witness: at a 1801-second difference the violation fires; at 1800 it
does not. -/
theorem claim_C6_witness :
    (isObjectLike (jsO [("timestamp", JSValue.num 1801)]) = true ∧
      (timestampMsg (mathTrunc 1801) (mathTrunc 0) ∈
          validateExpected (jsO [("timestamp", JSValue.num 1801)])
            { amount := none, timestamp := some 0, payerRef := none,
              transferId := none, sourceHost := none } ↔
        1800 < (mathTrunc 1801 - mathTrunc 0).natAbs)) ∧
      validateExpected (jsO [("timestamp", JSValue.num 1800)])
        { amount := none, timestamp := some 0, payerRef := none,
          transferId := none, sourceHost := none } = [] :=
  ⟨⟨by decide,
    claim_C6 (jsO [("timestamp", JSValue.num 1801)]) 1801 0
      { amount := none, timestamp := some 0, payerRef := none,
        transferId := none, sourceHost := none }
      (by decide) (by decide) (by decide)⟩,
   by decide⟩

/-- C10: with a finite numeric expected timestamp and an absent claim
timestamp, `validateExpected` substitutes 0 for the actual side: the skew
violation (showing `actual=0`) fires exactly when the truncated expected
timestamp exceeds 1800 in absolute value. -/
theorem claim_C10 (e : JSValue) (q : Int) (c : NormalizedClaim)
    (hobj : isObjectLike e = true) (hts : jsGet e "timestamp" = JSValue.num q)
    (hct : c.timestamp = none) :
    timestampMsg (mathTrunc q) 0 ∈ validateExpected e c ↔
      1800 < (mathTrunc q).natAbs := by
  have hval : validateExpected e c = amountCheck e c ++ timestampCheck e c ++
      transferIdCheck e c ++ payerRefCheck e c := by
    simp [validateExpected, hobj]
  have hhome : timestampMsg (mathTrunc q) 0 ∈ timestampCheck e c ↔
      1800 < (mathTrunc q).natAbs := by
    simp only [timestampCheck, hts, hct]
    split <;> simp_all [mathTrunc]
  rw [hval]
  simp only [List.mem_append, hhome, timestampMsg_not_mem_amountCheck,
    timestampMsg_not_mem_transferIdCheck, timestampMsg_not_mem_payerRefCheck,
    or_false, false_or]

/-- C10 witness: expected timestamp 1801 against an absent claim timestamp
produces the violation with `actual=0`. -/
theorem claim_C10_witness :
    (isObjectLike (jsO [("timestamp", JSValue.num 1801)]) = true ∧
      (timestampMsg (mathTrunc 1801) 0 ∈
          validateExpected (jsO [("timestamp", JSValue.num 1801)])
            { amount := none, timestamp := none, payerRef := none,
              transferId := none, sourceHost := none } ↔
        1800 < (mathTrunc 1801).natAbs)) ∧
      validateExpected (jsO [("timestamp", JSValue.num 1801)])
        { amount := none, timestamp := none, payerRef := none,
          transferId := none, sourceHost := none } =
        [timestampMsg 1801 0] :=
  ⟨⟨by decide,
    claim_C10 (jsO [("timestamp", JSValue.num 1801)]) 1801
      { amount := none, timestamp := none, payerRef := none,
        transferId := none, sourceHost := none }
      (by decide) (by decide) (by decide)⟩,
   by decide⟩

theorem amountCheck_mem_iff (e : JSValue) (ea : String) (c : NormalizedClaim)
    (ham : jsGet e "amount" = JSValue.str ea) :
    amountMsg ea (tmpl c.amount) ∈ amountCheck e c ↔
      (isUnsignedIntegerText (some ea) = true ∧ isUnsignedIntegerText c.amount = true ∧
        some ea ≠ c.amount) := by
  simp only [amountCheck, ham]
  split <;> simp_all

theorem amountCheck_eq_nil (e : JSValue) (c : NormalizedClaim)
    (hman : ∀ s, jsGet e "amount" ≠ JSValue.str s) :
    amountCheck e c = [] := by
  unfold amountCheck
  split
  · next ea heq => exact absurd heq (hman ea)
  · rfl

/-- C7 (amended): the amount constraint is enforced exactly when the
expected amount is a string and both sides pass `isUnsignedIntegerText`
(which trims before the all-digits test); the inequality compared is the
untrimmed one; a non-string expected amount contributes no amount error. -/
theorem claim_C7 (e : JSValue) (c : NormalizedClaim) (hobj : isObjectLike e = true) :
    (∀ ea, jsGet e "amount" = JSValue.str ea →
      (amountMsg ea (tmpl c.amount) ∈ validateExpected e c ↔
        (isUnsignedIntegerText (some ea) = true ∧ isUnsignedIntegerText c.amount = true ∧
          some ea ≠ c.amount))) ∧
    ((∀ s, jsGet e "amount" ≠ JSValue.str s) →
      ∀ x y, amountMsg x y ∉ validateExpected e c) := by
  have hval : validateExpected e c = amountCheck e c ++ timestampCheck e c ++
      transferIdCheck e c ++ payerRefCheck e c := by
    simp [validateExpected, hobj]
  constructor
  · intro ea ham
    rw [hval]
    simp only [List.mem_append, amountCheck_mem_iff e ea c ham,
      amountMsg_not_mem_timestampCheck, amountMsg_not_mem_transferIdCheck,
      amountMsg_not_mem_payerRefCheck, or_false]
  · intro hman x y
    rw [hval, amountCheck_eq_nil e c hman]
    simp only [List.nil_append, List.mem_append]
    rintro ((h | h) | h)
    · exact amountMsg_not_mem_timestampCheck x y e c h
    · exact amountMsg_not_mem_transferIdCheck x y e c h
    · exact amountMsg_not_mem_payerRefCheck x y e c h

/-- C7 witness: expected amount `"1000000"` against normalized `"1000001"`
produces the `amount mismatch` detail; an empty constraints object
contributes nothing. -/
theorem claim_C7_witness :
    (isObjectLike (jsO [("amount", JSValue.str "1000000")]) = true ∧
      jsGet (jsO [("amount", JSValue.str "1000000")]) "amount" =
        JSValue.str "1000000" ∧
      (amountMsg "1000000"
          (tmpl (some "1000001")) ∈
          validateExpected (jsO [("amount", JSValue.str "1000000")])
            { amount := some "1000001", timestamp := none, payerRef := none,
              transferId := none, sourceHost := none } ↔
        (isUnsignedIntegerText (some "1000000") = true ∧
          isUnsignedIntegerText (some "1000001") = true ∧
          some "1000000" ≠ some "1000001"))) ∧
      validateExpected (jsO [("amount", JSValue.str "1000000")])
        { amount := some "1000001", timestamp := none, payerRef := none,
          transferId := none, sourceHost := none } =
        [amountMsg "1000000" "1000001"] ∧
      validateExpected (jsO [])
        { amount := some "1000001", timestamp := none, payerRef := none,
          transferId := none, sourceHost := none } = [] :=
  ⟨⟨by decide, by decide,
    (claim_C7 (jsO [("amount", JSValue.str "1000000")])
      { amount := some "1000001", timestamp := none, payerRef := none,
        transferId := none, sourceHost := none } (by decide)).1
      "1000000" (by decide)⟩,
   by decide, by decide⟩

/-- C7 counterexample to the claim as frozen: `" 123"` is not a purely-digit
string (its first character is a space), yet the amount check is enforced and
reports a mismatch against the normalized amount `"123"`. -/
theorem claim_C7_counterexample :
    validateExpected (jsO [("amount", JSValue.str " 123")])
      { amount := some "123", timestamp := none, payerRef := none,
        transferId := none, sourceHost := none } =
      [amountMsg " 123" "123"] ∧
    allDigits " 123".data = false := by
  constructor <;> decide

/-- C9: `validateExpected` never short-circuits — its output length is the
sum of the four check contributions and every triggered check's entry is in
the output. -/
theorem claim_C9 (e : JSValue) (c : NormalizedClaim) (hobj : isObjectLike e = true) :
    (validateExpected e c).length = (amountCheck e c).length +
      (timestampCheck e c).length + (transferIdCheck e c).length +
      (payerRefCheck e c).length ∧
    (∀ m, (m ∈ amountCheck e c ∨ m ∈ timestampCheck e c ∨
        m ∈ transferIdCheck e c ∨ m ∈ payerRefCheck e c) →
      m ∈ validateExpected e c) := by
  have hval : validateExpected e c = amountCheck e c ++ timestampCheck e c ++
      transferIdCheck e c ++ payerRefCheck e c := by
    simp [validateExpected, hobj]
  rw [hval]
  constructor
  · simp only [List.length_append]
  · intro m hm
    simp only [List.mem_append]
    tauto

/-- C9 witness: four simultaneously violated constraints are all reported
together, in source order. -/
theorem claim_C9_witness :
    (isObjectLike (jsO [("amount", JSValue.str "1"), ("timestamp", JSValue.num 2000),
        ("transferId", JSValue.str "x"), ("payerRef", JSValue.str "p")]) = true ∧
      (validateExpected
          (jsO [("amount", JSValue.str "1"), ("timestamp", JSValue.num 2000),
            ("transferId", JSValue.str "x"), ("payerRef", JSValue.str "p")])
          { amount := some "2", timestamp := some 0, payerRef := some "q",
            transferId := some "y", sourceHost := some "wise.com" }).length =
        (amountCheck
          (jsO [("amount", JSValue.str "1"), ("timestamp", JSValue.num 2000),
            ("transferId", JSValue.str "x"), ("payerRef", JSValue.str "p")])
          { amount := some "2", timestamp := some 0, payerRef := some "q",
            transferId := some "y", sourceHost := some "wise.com" }).length +
        (timestampCheck
          (jsO [("amount", JSValue.str "1"), ("timestamp", JSValue.num 2000),
            ("transferId", JSValue.str "x"), ("payerRef", JSValue.str "p")])
          { amount := some "2", timestamp := some 0, payerRef := some "q",
            transferId := some "y", sourceHost := some "wise.com" }).length +
        (transferIdCheck
          (jsO [("amount", JSValue.str "1"), ("timestamp", JSValue.num 2000),
            ("transferId", JSValue.str "x"), ("payerRef", JSValue.str "p")])
          { amount := some "2", timestamp := some 0, payerRef := some "q",
            transferId := some "y", sourceHost := some "wise.com" }).length +
        (payerRefCheck
          (jsO [("amount", JSValue.str "1"), ("timestamp", JSValue.num 2000),
            ("transferId", JSValue.str "x"), ("payerRef", JSValue.str "p")])
          { amount := some "2", timestamp := some 0, payerRef := some "q",
            transferId := some "y", sourceHost := some "wise.com" }).length) ∧
      validateExpected
        (jsO [("amount", JSValue.str "1"), ("timestamp", JSValue.num 2000),
          ("transferId", JSValue.str "x"), ("payerRef", JSValue.str "p")])
        { amount := some "2", timestamp := some 0, payerRef := some "q",
          transferId := some "y", sourceHost := some "wise.com" } =
        [amountMsg "1" "2", timestampMsg 2000 0, transferIdMsg "x" "y",
          payerRefMsg "p" "q"] :=
  ⟨⟨by decide,
    (claim_C9
      (jsO [("amount", JSValue.str "1"), ("timestamp", JSValue.num 2000),
        ("transferId", JSValue.str "x"), ("payerRef", JSValue.str "p")])
      { amount := some "2", timestamp := some 0, payerRef := some "q",
        transferId := some "y", sourceHost := some "wise.com" }
      (by decide)).1⟩,
   by decide⟩

/-- C8: the host matcher accepts exactly when the trimmed, lowercased host
equals a listed suffix or ends with `"."` followed by one; with the default
allow-list, `evilwise.com` (no dot before the suffix) is rejected while
`wise.com` and `api.wise.com` are accepted. -/
theorem claim_C8 :
    (∀ (h : String) (suffixes : List String),
      hostMatchesAllowedSuffix h suffixes = true ↔
        ∃ s ∈ suffixes, sLower (sTrim h) = s ∨
          sEndsWith (sLower (sTrim h)) ("." ++ s) = true) ∧
    hostMatchesAllowedSuffix "evilwise.com" (parseAllowedHostSuffixes none) = false ∧
    hostMatchesAllowedSuffix "wise.com" (parseAllowedHostSuffixes none) = true ∧
    hostMatchesAllowedSuffix "api.wise.com" (parseAllowedHostSuffixes none) = true := by
  refine ⟨?_, by decide, by decide, by decide⟩
  intro h suffixes
  simp [hostMatchesAllowedSuffix, List.any_eq_true, Bool.or_eq_true,
    decide_eq_true_eq]

theorem hexDig_isLowerHex (n : Nat) (h : n < 16) : isLowerHexChar (hexDig n) = true := by
  interval_cases n <;> decide

theorem hexOfBytes_all (l : List Nat) : (hexOfBytes l).all isLowerHexChar = true := by
  induction l with
  | nil => rfl
  | cons b rest ih =>
    have h1 : isLowerHexChar (hexDig (b / 16 % 16)) = true :=
      hexDig_isLowerHex _ (Nat.mod_lt _ (by norm_num))
    have h2 : isLowerHexChar (hexDig (b % 16)) = true :=
      hexDig_isLowerHex _ (Nat.mod_lt _ (by norm_num))
    simp only [hexOfBytes, List.flatMap_cons, List.all_append] at ih ⊢
    simp [h1, h2, ih]

theorem hexOfBytes_length (l : List Nat) : (hexOfBytes l).length = 2 * l.length := by
  induction l with
  | nil => rfl
  | cons b rest ih =>
    simp only [hexOfBytes, List.flatMap_cons, List.length_append] at ih ⊢
    simp [ih]
    omega

theorem sha256Bytes_length (msg : List Nat) : (sha256Bytes msg).length = 32 := by
  simp [sha256Bytes, bytesOfWord]

theorem sha256Hex_shape (s : String) :
    ∃ body : String, sha256Hex s = "0x" ++ body ∧ body.data.length = 64 ∧
      body.data.all isLowerHexChar = true := by
  refine ⟨⟨hexOfBytes (sha256Bytes (utf8Bytes s))⟩, rfl, ?_, ?_⟩
  · show (hexOfBytes (sha256Bytes (utf8Bytes s))).length = 64
    rw [hexOfBytes_length, sha256Bytes_length]
  · exact hexOfBytes_all _

/-- C2: `buildWiseReceiptHash` is a pure function of its two arguments
(repeated applications are definitionally equal), and its output is a
`0x`-prefixed digest of 64 lowercase hex characters. -/
theorem claim_C2 (c : NormalizedClaim) (att : JSValue) :
    buildWiseReceiptHash c att = buildWiseReceiptHash c att ∧
    ∃ body : String, buildWiseReceiptHash c att = "0x" ++ body ∧
      body.data.length = 64 ∧ body.data.all isLowerHexChar = true := by
  refine ⟨rfl, ?_⟩
  unfold buildWiseReceiptHash
  exact sha256Hex_shape _

theorem strAppend_assoc (a b c : String) : (a ++ b) ++ c = a ++ (b ++ c) := by
  obtain ⟨x⟩ := a
  obtain ⟨y⟩ := b
  obtain ⟨z⟩ := c
  show String.mk ((x ++ y) ++ z) = String.mk (x ++ (y ++ z))
  rw [List.append_assoc]

/-- C1 counterexample: at the repository's own test fixture, the hash the
code computes differs from the spec's digest-first ordering. -/
theorem claim_C1_counterexample :
    buildWiseReceiptHash
      { amount := some "1000000", timestamp := some 1739102400,
        payerRef := some "payer-a", transferId := some "tx-1",
        sourceHost := some "wise.com" }
      (jsO [("a", JSValue.num 1), ("b", JSValue.str "2")]) ≠
    specOrderedReceiptHash
      { amount := some "1000000", timestamp := some 1739102400,
        payerRef := some "payer-a", transferId := some "tx-1",
        sourceHost := some "wise.com" }
      (jsO [("a", JSValue.num 1), ("b", JSValue.str "2")]) := by decide

/-- C1 (amended): for a fully populated normalized claim,
`buildWiseReceiptHash` equals the outer hash of the pipe-joined string
`"wise" | sourceHost | transferId | payerRef | amount |
integer-truncated-timestamp | innerDigest`, where `innerDigest` is the hash
of the JSON serialization of the attestation — i.e. the inner attestation
digest is the LAST pipe-joined component, not the first. -/
theorem claim_C1 (sh tid pr am : String) (ts : Int) (att : JSValue) :
    buildWiseReceiptHash
      { amount := some am, timestamp := some ts, payerRef := some pr,
        transferId := some tid, sourceHost := some sh } att =
    sha256Hex ("wise" ++ "|" ++ sh ++ "|" ++ tid ++ "|" ++ pr ++ "|" ++ am ++
      "|" ++ jsStringOfInt (mathTrunc ts) ++ "|" ++
      sha256Hex (jsonStringify att)) := by
  simp [buildWiseReceiptHash, jsJoin, joinElt, strAppend_assoc]

theorem firstTruthy_some {l : List (Option String)} {u : String}
    (h : firstTruthy l = some u) : u ≠ "" := by
  induction l with
  | nil => simp [firstTruthy] at h
  | cons o rest ih =>
    by_cases ho : optTruthy o = true
    · rw [firstTruthy, if_pos ho] at h
      subst h
      simpa [optTruthy] using ho
    · rw [firstTruthy, if_neg ho] at h
      exact ih h

theorem normalizeHexString_some_ne (v : JSValue) (t : String)
    (h : normalizeHexString v = some t) : t ≠ "" := by
  cases v with
  | str s =>
    intro ht
    subst ht
    unfold normalizeHexString at h
    dsimp only at h
    by_cases c1 : sTrim s = ""
    · rw [if_pos c1] at h
      simp at h
    · rw [if_neg c1] at h
      by_cases c2 : (sStartsWith (sTrim s) "0x" &&
          isHexText ⟨(sTrim s).data.drop 2⟩) = true
      · rw [if_pos c2] at h
        have h4 := Option.some.inj h
        have hd : ((sTrim s).data.drop 2).map charLower = ([] : List Char) :=
          congrArg String.data h4
        rw [List.map_eq_nil_iff] at hd
        simp [isHexText, hd] at c2
      · rw [if_neg c2] at h
        by_cases c3 : isHexText (sTrim s) = true
        · rw [if_pos c3] at h
          have h4 := Option.some.inj h
          have hd : (sTrim s).data.map charLower = ([] : List Char) :=
            congrArg String.data h4
          rw [List.map_eq_nil_iff] at hd
          simp [isHexText, hd] at c3
        · rw [if_neg c3] at h
          simp at h
  | null => simp [normalizeHexString] at h
  | bool b => simp [normalizeHexString] at h
  | num n => simp [normalizeHexString] at h
  | arr items => simp [normalizeHexString] at h
  | obj fields => simp [normalizeHexString] at h

theorem goNull (fuel : Nat) : extractPresentationHexGo fuel .null = none := by
  cases fuel with
  | zero => rfl
  | succ f =>
    simp [extractPresentationHexGo, normalizeHexString, optTruthy,
      maybeParseJsonString, asRecord, jsKeys, JSFields.toList]

theorem go_nestKey_found (s t : String) (h : normalizeHexString (.str s) = some t) :
    ∀ j fuel, j < fuel → extractPresentationHexGo fuel (nestKey j (.str s)) = some t := by
  have ht : t ≠ "" := normalizeHexString_some_ne _ _ h
  intro j
  induction j with
  | zero =>
    intro fuel hf
    obtain ⟨f, rfl⟩ : ∃ f, fuel = f + 1 := ⟨fuel - 1, by omega⟩
    simp [nestKey, extractPresentationHexGo, h, optTruthy, ht]
  | succ j ih =>
    intro fuel hf
    obtain ⟨f, rfl⟩ : ∃ f, fuel = f + 1 := ⟨fuel - 1, by omega⟩
    have hrec := ih f (by omega)
    simp [nestKey, extractPresentationHexGo, normalizeHexString, optTruthy,
      maybeParseJsonString, asRecord, jsKeys, JSFields.toList, jsO,
      JSFields.ofList, presentationCandidateKeys, jsGet, jsGet.go, firstTruthy,
      goNull, hrec, ht]

theorem go_nestKey_deep (v : JSValue) :
    ∀ fuel j, fuel ≤ j → extractPresentationHexGo fuel (nestKey j v) = none := by
  intro fuel
  induction fuel with
  | zero => intro j hj; rfl
  | succ f ih =>
    intro j hj
    obtain ⟨j', rfl⟩ : ∃ j', j = j' + 1 := ⟨j - 1, by omega⟩
    have hrec := ih j' (by omega)
    simp [nestKey, extractPresentationHexGo, normalizeHexString, optTruthy,
      maybeParseJsonString, asRecord, jsKeys, JSFields.toList, jsO,
      JSFields.ofList, presentationCandidateKeys, jsGet, jsGet.go, firstTruthy,
      goNull, hrec]

theorem go_nestMeta_found (s t : String) (h : normalizeHexString (.str s) = some t) :
    ∀ j fuel, j < fuel → extractPresentationHexGo fuel (nestMeta j (.str s)) = some t := by
  have ht : t ≠ "" := normalizeHexString_some_ne _ _ h
  intro j
  induction j with
  | zero =>
    intro fuel hf
    obtain ⟨f, rfl⟩ : ∃ f, fuel = f + 1 := ⟨fuel - 1, by omega⟩
    simp [nestMeta, extractPresentationHexGo, h, optTruthy, ht]
  | succ j ih =>
    intro fuel hf
    obtain ⟨f, rfl⟩ : ∃ f, fuel = f + 1 := ⟨fuel - 1, by omega⟩
    have hrec := ih f (by omega)
    simp [nestMeta, extractPresentationHexGo, normalizeHexString, optTruthy,
      maybeParseJsonString, asRecord, jsKeys, JSFields.toList, jsO,
      JSFields.ofList, presentationCandidateKeys, jsGet, jsGet.go, firstTruthy,
      goNull, hrec, ht]

/-- C4 (amended): the depth-5 bound counts recursion probe steps, not raw
structural nesting.  A valid hex leaf wrapped in exactly 5 candidate-key
mappings is returned normalized; wrapped in 6 or more it is lost; but a
`meta` hop spans two structural levels in one probe step, so a leaf wrapped
in 5 `meta`-plus-key double layers (structural depth 10) is still found. -/
theorem claim_C4 (s t : String) (k : Nat)
    (h : normalizeHexString (JSValue.str s) = some t) :
    extractPresentationHex (nestKey 5 (JSValue.str s)) = some t ∧
    extractPresentationHex (nestKey (6 + k) (JSValue.str s)) = none ∧
    extractPresentationHex (nestMeta 5 (JSValue.str s)) = some t :=
  ⟨go_nestKey_found s t h 5 6 (by omega),
   go_nestKey_deep _ 6 (6 + k) (by omega),
   go_nestMeta_found s t h 5 6 (by omega)⟩

/-- C4 witness: the amended behavior at the hex leaf `"0xAB"`. -/
theorem claim_C4_witness :
    normalizeHexString (JSValue.str "0xAB") = some "ab" ∧
    (extractPresentationHex (nestKey 5 (JSValue.str "0xAB")) = some "ab" ∧
      extractPresentationHex (nestKey (6 + 0) (JSValue.str "0xAB")) = none ∧
      extractPresentationHex (nestMeta 5 (JSValue.str "0xAB")) = some "ab") :=
  ⟨by decide, claim_C4 "0xAB" "ab" 0 (by decide)⟩

/-- C4 counterexample to the claim as frozen: in this payload the only valid
hex leaf sits 6 object levels deep (`meta` / `presentationHex` alternating),
yet extraction succeeds instead of returning `undefined`, because each
`meta`-plus-key hop costs only one unit of the recursion budget. -/
theorem claim_C4_counterexample :
    extractPresentationHex
      (jsO [("meta", jsO [("presentationHex",
        jsO [("meta", jsO [("presentationHex",
          jsO [("meta", jsO [("presentationHex",
            JSValue.str "deadbeef")])])])])])]) = some "deadbeef" := by decide

theorem scanTransfers_length_le (maxR : Nat) :
    ∀ (entries : List (Nat × Nat × Nat × JSValue)) (seen : List String)
      (result : List TransferRec), result.length < maxR →
      (scanTransfers maxR entries seen result).length ≤ maxR := by
  intro entries
  induction entries with
  | nil =>
    intro seen result h
    simpa [scanTransfers] using Nat.le_of_lt h
  | cons entry rest ih =>
    intro seen result h
    obtain ⟨ri, ai, ii, item⟩ := entry
    simp only [scanTransfers]
    cases hn : normalizeTransferItem item with
    | none => exact ih _ _ h
    | some n =>
      dsimp only
      split
      all_goals
        split
        · exact ih _ _ h
        · split
          · simp only [List.length_append, List.length_singleton]
            omega
          · next hlen =>
            apply ih
            simp only [List.length_append, List.length_singleton, ge_iff_le,
              not_le] at hlen
            simp only [List.length_append, List.length_singleton]
            omega

/-- C5 (amended): the scanner's output length never exceeds the clamped cap
(with 5 substituted when the limit is absent, not a number, or zero), and on
a recv transcript holding one JSON body with 6 transfer objects and limit 5
it returns exactly 5 records, in original array order, each carrying its
source transferId. -/
theorem claim_C5 :
    (∀ (attestation : JSValue) (recv : String) (limit : JSValue),
      (extractRecentTransfers attestation recv limit).length ≤
        (specRecentCap limit).toNat) ∧
    (extractRecentTransfers (jsO []) recvScenario3 (.num 5)).map
        TransferRec.transferId = ["t1", "t2", "t3", "t4", "t5"] ∧
    (extractRecentTransfers (jsO []) recvScenario3 (.num 5)).length = 5 := by
  refine ⟨?_, by decide, by decide⟩
  intro att recv limit
  have hcap : specRecentCap limit = recentMax limit := rfl
  rw [hcap]
  have hpos : 0 < (recentMax limit).toNat := by
    have h1 : (1 : Int) ≤ recentMax limit := le_max_left _ _
    omega
  unfold extractRecentTransfers
  exact scanTransfers_length_le _ _ _ _ hpos

/-- C5 counterexample to the claim as frozen: `limit = 0` is a number, and
`clamp(0, 1, 10) = 1`, yet `Number(limit) || 5` treats the falsy 0 as
"use the default 5", so two records come back — more than the claimed cap. -/
theorem claim_C5_counterexample :
    (extractRecentTransfers .null
      "[\x7b\"transferId\":\"1111111\",\"amount\":\"1\"\x7d,\x7b\"transferId\":\"2222222\",\"amount\":\"2\"\x7d]"
      (.num 0)).length = 2 ∧
    (max 1 (min 10 (0 : Int))).toNat = 1 := by
  constructor <;> decide

/-- C3 (amended): an attestation that is neither a JS object nor an array is
coerced to the empty mapping and contributes nothing (the scan reduces to the
transcript bodies alone); parsed transcript bodies, by contrast, enter the
root set uncoerced, so a body parsing as a top-level JSON array contributes
its elements. -/
theorem claim_C3 :
    (∀ (v : JSValue) (recv : String) (limit : JSValue),
      isObjectLike v = false →
        extractRecentTransfers v recv limit =
          extractRecentTransfers (jsO []) recv limit) ∧
    (extractRecentTransfers (jsO [])
      "[\x7b\"transferId\":\"7654321\",\"amount\":\"9\"\x7d]" (.num 3)).length = 1 := by
  refine ⟨?_, by decide⟩
  intro v recv limit hv
  unfold extractRecentTransfers
  have h1 : asRecord v = .obj .nil := by
    cases v <;> simp_all [asRecord, isObjectLike]
  have h2 : asRecord (jsO []) = .obj .nil := rfl
  rw [h1, h2]

/-- C3 witness: a string attestation scans identically to the empty object. -/
theorem claim_C3_witness :
    isObjectLike (JSValue.str "x") = false ∧
    extractRecentTransfers (JSValue.str "x") "" (.num 5) =
      extractRecentTransfers (jsO []) "" (.num 5) :=
  ⟨by decide, claim_C3.1 (JSValue.str "x") "" (.num 5) (by decide)⟩

/-- C3 counterexample to the claim as frozen: a transcript body that parses
as a top-level JSON array is claimed to coerce to an empty mapping and
contribute nothing, but the code pushes transcript bodies without coercion
and the array's element becomes a returned record. -/
theorem claim_C3_counterexample :
    extractRecentTransfers .null
      "[\x7b\"transferId\":\"1234567\",\"amount\":\"10\",\"payerRef\":\"bob\"\x7d]"
      (.num 5) =
    [{ amount := "10", timestamp := none, payerRef := "bob",
       transferId := "1234567", status := "", currency := "" }] := by decide
